import Mathlib

/-!
# Verification of `client/gateway/apisix.go`

A shallow embedding of the APISIX admin-API client (`ApisixClient`) and proofs about
its three request-issuing methods:

* `GetServiceAllInstances` (source lines 46-97),
* `SyncInstances` (source lines 113-182),
* `fetchInfoFromApisix` (source lines 184-241).

Go library calls the client relies on (`net/http`, `encoding/json`, `text/template`,
`strconv`) are not part of the repository; they are collected in the structure `Deps`
and every theorem holds for all of their possible behaviours.  A method call is
modelled by the receiver state it leaves behind, the HTTP requests it handed to the
HTTP client, and the way it ended (returned, panicked, or blocked on the mutex).
-/

namespace Apisix

/-! ## Go values -/

/-- A Go `error` value, kept by its message. -/
abbrev Error := String

/-- A Go `float32`, kept by its IEEE-754 bit pattern: the client stores and forwards
weights and never computes with them. -/
structure GoFloat32 where
  bits : Nat
  deriving DecidableEq

/-- A Go `float64`, kept by its IEEE-754 bit pattern. -/
structure GoFloat64 where
  bits : Nat
  deriving DecidableEq

/-- A Go `map[string]β`, kept as an association list.  Reading takes the first entry
with the key; a nil map reads like the empty one. -/
abbrev GoMap (β : Type) := List (String × β)

namespace GoMap

/-- Reading `m[k]` in the two-result form `v, ok := m[k]`. -/
def get {β : Type} : GoMap β → String → Option β
  | [], _ => none
  | (k', v) :: rest, k => if k' = k then some v else get rest k

/-- Assignment `m[k] = v`: overwrite the entry of `k` when there is one, add it otherwise. -/
def set {β : Type} : GoMap β → String → β → GoMap β
  | [], k, v => [(k, v)]
  | (k', v') :: rest, k, v => if k' = k then (k, v) :: rest else (k', v') :: set rest k v

/-- Keys of the map. -/
def keys {β : Type} (m : GoMap β) : List String := m.map Prod.fst

end GoMap

/-- The value of a Go `interface{}` filled by `encoding/json`: nil, bool, float64,
string, `[]interface{}` or `map[string]interface{}`. -/
inductive Json where
  | null
  | bool (b : Bool)
  | num (n : GoFloat64)
  | str (s : String)
  | arr (xs : List Json)
  | obj (kvs : List (String × Json))

/-! ## Data model (`model` package; only the fields the client touches) -/

/-- The record `model.Instance`: fields `Weight float32`, `Ip string`, `Port int`. -/
structure Instance where
  Weight : GoFloat32
  Ip : String
  Port : Int
  deriving DecidableEq

/-- The record `model.Gateway`: admin URL, path prefix and the `Config` string map. -/
structure Gateway where
  AdminUrl : String
  Prefix : String
  Config : GoMap String

/-- Receiver `ApisixClient`.  `UpstreamIdMap` is `none` for a nil map; `locked` is the
state of `mutex`.  `Client` and `Logger` carry no state the methods read. -/
structure ApisixClient where
  Config : Gateway
  UpstreamIdMap : Option (GoMap String)
  locked : Bool

/-- Reading `apisixClient.UpstreamIdMap[name]`: a nil map has no entry. -/
def ApisixClient.cached (c : ApisixClient) (name : String) : Option String :=
  GoMap.get (c.UpstreamIdMap.getD []) name

/-- An HTTP request as built by `http.NewRequest` followed by `Header.Add`. -/
structure Request where
  method : String
  uri : String
  headers : List (String × String)
  body : String
  deriving DecidableEq

/-- The part of `*http.Response` the client reads. -/
structure Response where
  StatusCode : Int
  Body : String
  deriving DecidableEq

/-- Result pair `(resp, err)` of `http.Client.Do`; `resp = none` is the nil response
returned on a transport failure. -/
structure HttpResult where
  resp : Option Response
  err : Option Error
  deriving DecidableEq

/-! ## Instance translation (source lines 122-125) -/

/-- The key `fmt.Sprintf("%s:%d", instance.Ip, instance.Port)`. -/
def nodeKey (i : Instance) : String :=
  i.Ip ++ ":" ++ toString i.Port

/-- The loop of source lines 122-125: starting from the empty map, assign
`nodes[key] = instance.Weight` for every instance in order. -/
def buildNodes (discoveryInstances : List Instance) : GoMap GoFloat32 :=
  discoveryInstances.foldl (fun nodes i => GoMap.set nodes (nodeKey i) i.Weight) []

/-! ## Gateway records (`model.ApisixNodeResp`, `model.ApisixResp`) -/

/-- Modelled from the spec: the declaration of the upstream record read through
`node.Value` is not among the sources; it has the three fields the client reads, `Id`,
`Name` and the Node Map `Nodes` (address:port to weight, weights being integers on
the gateway side). -/
structure ApisixNodeValue where
  Id : String
  Name : String
  Nodes : GoMap Int

/-- Modelled from the spec: the declaration of `model.ApisixNodeResp.Node` is not among
the sources; a node carries a `Value` and a slice `Nodes` of nodes of the same type
(line 80 appends the node to its own `Nodes`). -/
inductive ApisixNode where
  | mk (Value : ApisixNodeValue) (Nodes : List ApisixNode)

/-- Field `Value` of a node. -/
def ApisixNode.Value : ApisixNode → ApisixNodeValue
  | .mk v _ => v

/-- Field `Nodes` of a node. -/
def ApisixNode.Nodes : ApisixNode → List ApisixNode
  | .mk _ ns => ns

/-- Modelled from the spec: `model.ApisixNodeResp`, of which the client reads `Node`. -/
structure ApisixNodeResp where
  Node : ApisixNode

/-- Modelled from the spec: the `Node` field of `model.ApisixResp`, whose declaration is
not among the sources: `TNodes` is the decoded `interface{}` (`Json.null` for nil) and
`Nodes` the `[]map[string]interface{}` the client fills. -/
structure ApisixRespNode where
  TNodes : Json
  Nodes : List (GoMap Json)

/-- Modelled from the spec: `model.ApisixResp`, of which the client touches `Node`. -/
structure ApisixResp where
  Node : ApisixRespNode

/-- The zero value `model.ApisixResp{}`. -/
def ApisixResp.zero : ApisixResp := ⟨⟨Json.null, []⟩⟩

/-! ## Library calls and call results -/

/-- Behaviour of the Go library calls made by the client.  Each field stands for one
call site; the theorems quantify over all of them. -/
structure Deps where
  /-- Whether `http.NewRequest` accepts the URL (it returns a nil request otherwise). -/
  urlParses : String → Bool
  /-- The pair returned by `hc.Do(req)`. -/
  httpDo : Request → HttpResult
  /-- The bytes returned by `json.Marshal(nodes)` (line 126; its error is never read). -/
  jsonMarshalNodes : GoMap GoFloat32 → String
  /-- The error of `template.New("UpstreamTemplate").Parse(tpl)`, `none` when it parses. -/
  templateParse : String → Option Error
  /-- Running `tmpl.Execute` of the parsed text on `Name` and `Nodes`. -/
  templateExecute : String → String → String → Except Error String
  /-- Decoding a body into `model.ApisixNodeResp` (line 70). -/
  decodeNodeResp : String → ApisixNodeResp × Option Error
  /-- Decoding a body into the `[]string` of plugin names (line 203). -/
  decodePlugins : String → List String × Option Error
  /-- Decoding a body into `model.ApisixResp` (line 205). -/
  decodeResp : String → ApisixResp × Option Error
  /-- The value of `strconv.Atoi` (its error is dropped at line 89). -/
  atoi : String → Int
  /-- The conversion `float32(weight)` of line 90. -/
  float32 : Int → GoFloat32

/-- How a method call ends: it returns a value, it panics, or it never gets past
`mutex.Lock()`. -/
inductive Outcome (α : Type) where
  | returned (v : α)
  | panicked
  | blocked

/-- A finished method call: the receiver as the call leaves it, the requests handed to
`hc.Do` in order, and the outcome. -/
structure Call (α : Type) where
  client : ApisixClient
  trace : List Request
  outcome : Outcome α

/-- The package variable `fetchAllUpstream`. -/
def fetchAllUpstream : String := "upstreams"

/-- The value `apisixClient.Config.Config["X-API-KEY"]`, empty when the key is missing. -/
def apiKey (c : ApisixClient) : String :=
  (GoMap.get c.Config.Config "X-API-KEY").getD ""

/-- The request of `http.NewRequest(method, uri, body)`, `none` for the nil request
returned with the ignored error. -/
def newRequest (d : Deps) (method uri body : String) : Option Request :=
  if d.urlParses uri then some ⟨method, uri, [], body⟩ else none

/-- The two `req.Header.Add` calls made on every request. -/
def addHeaders (c : ApisixClient) (req : Request) : Request :=
  { req with headers := req.headers ++ [("Accept", "application/json"), ("X-API-KEY", apiKey c)] }

/-! ## `GetServiceAllInstances` (source lines 46-97) -/

/-- Splitting at a separator character, as `strings.Split(s, ":")` does: the result is
never empty and has one more element than there are separators. -/
def splitChars (sep : Char) : List Char → List (List Char)
  | [] => [[]]
  | ch :: cs =>
    if ch = sep then [] :: splitChars sep cs
    else
      match splitChars sep cs with
      | [] => [[ch]]
      | p :: ps => (ch :: p) :: ps

/-- The call `strings.Split(host, ":")`. -/
def stringsSplitColon (host : String) : List String :=
  (splitChars ':' host.toList).map String.mk

/-- The inner loop of lines 87-92 over one record's Node Map.  `none` is the
index-out-of-range panic of `ts[1]` on a key without a colon. -/
def parseHosts (d : Deps) : GoMap Int → List Instance → Option (List Instance)
  | [], instances => some instances
  | (host, weight) :: rest, instances =>
    match stringsSplitColon host with
    | t0 :: t1 :: _ =>
      parseHosts d rest (instances ++ [{ Weight := d.float32 weight, Ip := t0, Port := d.atoi t1 }])
    | _ => none

/-- The loop of lines 82-93: every node is indexed into the map by its declared name,
and the hosts of the nodes named `upstreamName` are collected.  The second component is
`none` when `ts[1]` panicked; the map is then the one reached at the panic. -/
def indexNodes (d : Deps) (upstreamName : String) :
    List ApisixNode → GoMap String → List Instance → GoMap String × Option (List Instance)
  | [], m, instances => (m, some instances)
  | node :: rest, m, instances =>
    let m1 := GoMap.set m node.Value.Name (fetchAllUpstream ++ "/" ++ node.Value.Id)
    if upstreamName ≠ node.Value.Name then indexNodes d upstreamName rest m1 instances
    else
      match parseHosts d node.Value.Nodes instances with
      | none => (m1, none)
      | some instances1 => indexNodes d upstreamName rest m1 instances1

/-- The method `GetServiceAllInstances`. -/
def GetServiceAllInstances (d : Deps) (c : ApisixClient) (upstreamName : String) :
    Call (List Instance × Option Error) :=
  if c.locked then ⟨c, [], .blocked⟩
  else
    let m0 := c.UpstreamIdMap.getD []
    let c1 : ApisixClient := { c with locked := true, UpstreamIdMap := some m0 }
    let upstreamId :=
      match GoMap.get m0 upstreamName with
      | some id => id
      | none => fetchAllUpstream
    let uri := c.Config.AdminUrl ++ c.Config.Prefix ++ upstreamId
    match newRequest d "GET" uri "" with
    | none => ⟨c1, [], .panicked⟩
    | some req0 =>
      let req := addHeaders c req0
      let r := d.httpDo req
      match r.err with
      | some e => ⟨c1, [req], .returned ([], some e)⟩
      | none =>
        match r.resp with
        | none => ⟨c1, [req], .panicked⟩
        | some resp =>
          match d.decodeNodeResp resp.Body with
          | (_, some e) => ⟨c1, [req], .returned ([], some e)⟩
          | (apisixResp, none) =>
            let nodes :=
              if upstreamId ≠ fetchAllUpstream then apisixResp.Node.Nodes ++ [apisixResp.Node]
              else apisixResp.Node.Nodes
            match indexNodes d upstreamName nodes m0 [] with
            | (m, none) => ⟨{ c1 with UpstreamIdMap := some m }, [req], .panicked⟩
            | (m, some instances) =>
              ⟨{ c1 with UpstreamIdMap := some m, locked := false }, [req],
                .returned (instances, none)⟩

/-! ## `SyncInstances` (source lines 99-182) -/

/-- The package variable `DefaultApisixUpstreamTemplate`. -/
def DefaultApisixUpstreamTemplate : String :=
  "\n\x7b\n    \"timeout\": \x7b\n        \"connect\": 30,\n        \"send\": 30,\n        \"read\": 30\n    \x7d,\n    \"name\": \"\x7b\x7b.Name\x7d\x7d\",\n    \"nodes\": \x7b\x7b.Nodes\x7d\x7d,\n    \"type\":\"roundrobin\",\n    \"desc\": \"auto sync by https://github.com/anjia0532/discovery-syncer\"\n\x7d\n"

/-- Lines 119-153: the method, resource path and body of the write, or the parse error
of the creation template with which the call returns before any request. -/
def prepareWrite (d : Deps) (c : ApisixClient) (name tpl : String)
    (discoveryInstances : List Instance) : Except Error (String × String × String) :=
  let nodesJson := d.jsonMarshalNodes (buildNodes discoveryInstances)
  match c.cached name with
  | none =>
    let tpl1 := if tpl.length = 0 then DefaultApisixUpstreamTemplate else tpl
    match d.templateParse tpl1 with
    | some e => .error e
    | none =>
      let body :=
        match d.templateExecute tpl1 name nodesJson with
        | .ok s => s
        | .error _ => ""
      .ok ("PUT", fetchAllUpstream ++ "/" ++ name, body)
  | some upstreamId => .ok ("PATCH", upstreamId ++ "/nodes", nodesJson)

/-- The method `SyncInstances`. -/
def SyncInstances (d : Deps) (c : ApisixClient) (name tpl : String)
    (discoveryInstances diffIns : List Instance) : Call (Option Error) :=
  if diffIns.length = 0 ∧ discoveryInstances.length = 0 then ⟨c, [], .returned none⟩
  else
    match prepareWrite d c name tpl discoveryInstances with
    | .error e => ⟨c, [], .returned (some e)⟩
    | .ok (method, upstreamId, body) =>
      let uri := c.Config.AdminUrl ++ c.Config.Prefix ++ upstreamId
      match newRequest d method uri body with
      | none => ⟨c, [], .panicked⟩
      | some req0 =>
        let req := addHeaders c req0
        let r := d.httpDo req
        match r.resp with
        | none => ⟨c, [req], .panicked⟩
        | some resp =>
          match r.err with
          | some e => ⟨c, [req], .returned (some e)⟩
          | none =>
            if resp.StatusCode ≥ 400 then ⟨c, [req], .returned none⟩
            else ⟨c, [req], .returned r.err⟩

/-! ## `fetchInfoFromApisix` (source lines 184-241) -/

/-- Whether `sub` starts at some position of the character list. -/
def occursIn (sub : List Char) : List Char → Bool
  | [] => sub.isEmpty
  | ch :: cs => sub.isPrefixOf (ch :: cs) || occursIn sub cs

/-- The call `strings.Contains(s, substr)`. -/
def stringsContains (s substr : String) : Bool :=
  occursIn substr.toList s.toList

/-- Lines 216-219: the record of one plugin name. -/
def pluginRecord (pluginName : String) : GoMap Json :=
  let apisixPlugin : GoMap Json := [("name", Json.str pluginName)]
  if pluginName = "mqtt-proxy" ∨ "dubbo-proxy" = pluginName then
    GoMap.set apisixPlugin "stream" (Json.bool true)
  else apisixPlugin

/-- The loop of lines 226-234 over the children.  `none` is the panic of the type
assertion `val.(map[string]interface{})` on a `value` that is not a map. -/
def collectValues : List Json → List (GoMap Json) → Option (List (GoMap Json))
  | [], acc => some acc
  | node :: rest, acc =>
    match node with
    | .obj b =>
      match GoMap.get b "value" with
      | some (.obj val) => collectValues rest (acc ++ [val])
      | some _ => none
      | none => collectValues rest acc
    | _ => collectValues rest acc

/-- The method `fetchInfoFromApisix`. -/
def fetchInfoFromApisix (d : Deps) (c : ApisixClient) (uri : String) :
    Call (ApisixResp × Option Error) :=
  let url := c.Config.AdminUrl ++ c.Config.Prefix ++ uri
  match newRequest d "GET" url "" with
  | none => ⟨c, [], .panicked⟩
  | some req0 =>
    let req := addHeaders c req0
    let r := d.httpDo req
    match r.err with
    | some e => ⟨c, [req], .returned (ApisixResp.zero, some e)⟩
    | none =>
      match r.resp with
      | none => ⟨c, [req], .panicked⟩
      | some resp =>
        let decoded : List String × ApisixResp × Option Error :=
          if stringsContains uri "plugins/list" then
            ((d.decodePlugins resp.Body).1, ApisixResp.zero, (d.decodePlugins resp.Body).2)
          else
            ([], (d.decodeResp resp.Body).1, (d.decodeResp resp.Body).2)
        match decoded with
        | (_, apisixResp, some e) => ⟨c, [req], .returned (apisixResp, some e)⟩
        | (plugins, apisixResp, none) =>
          if plugins.length > 0 then
            ⟨c, [req], .returned (⟨⟨apisixResp.Node.TNodes, plugins.map pluginRecord⟩⟩, none)⟩
          else
            match apisixResp.Node.TNodes with
            | .arr n =>
              match collectValues n [] with
              | none => ⟨c, [req], .panicked⟩
              | some vals => ⟨c, [req], .returned (⟨⟨apisixResp.Node.TNodes, vals⟩⟩, none)⟩
            | _ => ⟨c, [req], .returned (⟨⟨apisixResp.Node.TNodes, []⟩⟩, none)⟩

/-! ## A concrete environment for the worked examples

The worked examples below run the methods against one fixed choice of the library
calls: a server that answers every request, and an evaluator for the fragment of
`text/template` made of literal text and field actions. -/

/-- The opening brace character. -/
def lbrace : Char := Char.ofNat 123

/-- The closing brace character. -/
def rbrace : Char := Char.ofNat 125

/-- A parsed template: literal text and field actions between double braces. -/
inductive Piece where
  | text (s : List Char)
  | field (s : List Char)

/-- Scanning a template text; `none` is the parse error "unclosed action". -/
def scanTemplate : List Char → Bool → List Char → Option (List Piece)
  | [], inAction, acc => if inAction then none else some [Piece.text acc.reverse]
  | [ch], inAction, acc => if inAction then none else some [Piece.text (ch :: acc).reverse]
  | ch :: ch2 :: rest, inAction, acc =>
    if inAction = false ∧ ch = lbrace ∧ ch2 = lbrace then
      (scanTemplate rest true []).map (fun ps => Piece.text acc.reverse :: ps)
    else if inAction = true ∧ ch = rbrace ∧ ch2 = rbrace then
      (scanTemplate rest false []).map (fun ps => Piece.field acc.reverse :: ps)
    else scanTemplate (ch2 :: rest) inAction (ch :: acc)

/-- Executing the pieces on the data `Name`, `Nodes`; any other field is the execution
error "can't evaluate field". -/
def runPieces (name nodes : String) : List Piece → Except Error String
  | [] => .ok ""
  | Piece.text s :: rest =>
    match runPieces name nodes rest with
    | .ok out => .ok (String.mk s ++ out)
    | .error e => .error e
  | Piece.field s :: rest =>
    if String.mk s = ".Name" then
      match runPieces name nodes rest with
      | .ok out => .ok (name ++ out)
      | .error e => .error e
    else if String.mk s = ".Nodes" then
      match runPieces name nodes rest with
      | .ok out => .ok (nodes ++ out)
      | .error e => .error e
    else .error "can't evaluate field"

/-- Writing a Node Map as text, one `key:bits` item per entry. -/
def showNodes (nodes : GoMap GoFloat32) : String :=
  "[" ++ String.intercalate "," (nodes.map (fun kv => kv.1 ++ "=" ++ toString kv.2.bits)) ++ "]"

/-- The library behaviour of the worked examples: every URL is accepted, every request
is answered with status 200 and an empty body, and decoding yields empty values. -/
def exampleDeps : Deps where
  urlParses := fun _ => true
  httpDo := fun _ => ⟨some ⟨200, ""⟩, none⟩
  jsonMarshalNodes := showNodes
  templateParse := fun t =>
    match scanTemplate t.toList false [] with
    | some _ => none
    | none => some "unclosed action"
  templateExecute := fun t name nodes =>
    match scanTemplate t.toList false [] with
    | some ps => runPieces name nodes ps
    | none => .error "unclosed action"
  decodeNodeResp := fun _ => (⟨ApisixNode.mk ⟨"", "", []⟩ []⟩, none)
  decodePlugins := fun _ => ([], none)
  decodeResp := fun _ => (ApisixResp.zero, none)
  atoi := fun _ => 0
  float32 := fun n => ⟨n.toNat⟩

/-- A client with an empty cache and a free lock. -/
def exampleClient : ApisixClient :=
  ⟨⟨"http://127.0.0.1:9080", "/apisix/admin/", [("X-API-KEY", "key")]⟩, none, false⟩

/-- A client whose cache knows `svcA` under `upstreams/7`. -/
def cachedClient : ApisixClient :=
  ⟨⟨"http://127.0.0.1:9080", "/apisix/admin/", [("X-API-KEY", "key")]⟩,
    some [("svcA", "upstreams/7")], false⟩

/-- One discovered instance. -/
def exampleInstance : Instance := ⟨⟨1⟩, "10.0.0.1", 8080⟩

/-- The headers every request carries in the examples. -/
def exampleHeaders : List (String × String) :=
  [("Accept", "application/json"), ("X-API-KEY", "key")]

/-- A gateway whose listing holds three upstream records: `svcA` under id 7, `svcB`
under id 8 and `svcA` again under id 9. -/
def listingDeps : Deps :=
  { exampleDeps with
    decodeNodeResp := fun _ =>
      (⟨ApisixNode.mk ⟨"", "", []⟩
          [ApisixNode.mk ⟨"7", "svcA", [("10.0.0.1:8080", 1)]⟩ [],
           ApisixNode.mk ⟨"8", "svcB", [("10.0.0.2:8080", 1)]⟩ [],
           ApisixNode.mk ⟨"9", "svcA", [("10.0.0.3:8080", 1)]⟩ []]⟩, none) }

/-- A gateway whose answer is not JSON: decoding fails. -/
def badJsonDeps : Deps :=
  { exampleDeps with
    decodeNodeResp := fun _ =>
      (⟨ApisixNode.mk ⟨"", "", []⟩ []⟩, some "invalid character '<' looking for beginning of value") }

/-- A gateway answering the plugin listing with three plugin names. -/
def pluginDeps : Deps :=
  { exampleDeps with decodePlugins := fun _ => (["mqtt-proxy", "foo", "dubbo-proxy"], none) }

/-- A gateway answering with a tree of three children: two carry a `value` map, the
one in the middle has none. -/
def treeDeps : Deps :=
  { exampleDeps with
    decodeResp := fun _ =>
      (⟨⟨Json.arr
          [Json.obj [("key", Json.str "/apisix/routes/1"), ("value", Json.obj [("id", Json.str "1")])],
           Json.obj [("key", Json.str "/apisix/routes/2")],
           Json.obj [("key", Json.str "/apisix/routes/3"), ("value", Json.obj [("id", Json.str "3")])]],
          []⟩⟩, none) }

/-- A gateway answering with a single resource: the decoded node has no list of
children (`TNodes` is nil). -/
def singleDeps : Deps :=
  { exampleDeps with decodeResp := fun _ => (⟨⟨Json.null, []⟩⟩, none) }

/-- A gateway answering with a single resource put where the children would be:
`TNodes` is one map with a `value` field instead of a list of such maps. -/
def singleChildDeps : Deps :=
  { exampleDeps with
    decodeResp := fun _ =>
      (⟨⟨Json.obj [("key", Json.str "/apisix/upstreams/7"), ("value", Json.obj [("id", Json.str "7")])],
          []⟩⟩, none) }

/-- The server of the examples answering every request with status 500. -/
def rejectingDeps : Deps :=
  { exampleDeps with httpDo := fun _ => ⟨some ⟨500, "error"⟩, none⟩ }

/-- The environment of the examples with a transport that fails: `hc.Do` returns a nil
response and an error. -/
def failingDeps : Deps :=
  { exampleDeps with httpDo := fun _ => ⟨none, some "dial tcp 127.0.0.1:9080: connection refused"⟩ }

/-- A gateway whose listing holds `svcA` with the Node Map key `example.com` (an
address without port) followed by `svcB`. -/
def portlessDeps : Deps :=
  { exampleDeps with
    decodeNodeResp := fun _ =>
      (⟨ApisixNode.mk ⟨"", "", []⟩
          [ApisixNode.mk ⟨"7", "svcA", [("example.com", 1)]⟩ [],
           ApisixNode.mk ⟨"8", "svcB", [("10.0.0.2:8080", 1)]⟩ []]⟩, none) }

/-! ## Definitions used to state the properties -/

/-- The decimal numeral of an integer, with a leading minus sign when negative. -/
def decimal : Int → String
  | Int.ofNat n => Nat.repr n
  | Int.negSucc n => "-" ++ Nat.repr (n + 1)

/-- The weight of the last instance of the list whose address and port give the key
`k`, that is, for which `k` is `ip + ":" + decimal(port)`. -/
def lastWeight (k : String) (l : List Instance) : Option GoFloat32 :=
  (l.reverse.find? (fun i => decide (i.Ip ++ ":" ++ decimal i.Port = k))).map Instance.Weight

/-- The outcome of `SyncInstances` as a function of the pair returned by `hc.Do`
(lines 162-181): a panic on a nil response, the transport error, or a nil error. -/
def afterWrite (r : HttpResult) : Outcome (Option Error) :=
  match r.resp with
  | none => .panicked
  | some _ =>
    match r.err with
    | some e => .returned (some e)
    | none => .returned none

/-- The last node of a listing that declares the name `name`. -/
def lastNamed (name : String) (nodes : List ApisixNode) : Option ApisixNode :=
  nodes.reverse.find? (fun n => decide (n.Value.Name = name))

/-- The GET request for the whole upstream collection (the listing call). -/
def listingRequest (c : ApisixClient) : Request :=
  ⟨"GET", c.Config.AdminUrl ++ c.Config.Prefix ++ "upstreams",
    [("Accept", "application/json"), ("X-API-KEY", apiKey c)], ""⟩

/-- The loop of lines 82-83 alone: assigning the path of every node under its name. -/
def indexAll (nodes : List ApisixNode) (m : GoMap String) : GoMap String :=
  nodes.foldl (fun acc n => GoMap.set acc n.Value.Name ("upstreams/" ++ n.Value.Id)) m

/-- The GET request of `fetchInfoFromApisix` for the resource path `uri`. -/
def fetchRequest (c : ApisixClient) (uri : String) : Request :=
  ⟨"GET", c.Config.AdminUrl ++ c.Config.Prefix ++ uri,
    [("Accept", "application/json"), ("X-API-KEY", apiKey c)], ""⟩

/-- The record expected for a plugin name: `name`, and `stream: true` for the two
stream plugins only. -/
def expectedPluginRecord (n : String) : GoMap Json :=
  if n = "mqtt-proxy" ∨ n = "dubbo-proxy" then
    [("name", Json.str n), ("stream", Json.bool true)]
  else [("name", Json.str n)]

/-- The `value` map of a child: defined for a child that is a map with a `value` field
holding a map. -/
def valueMapOf : Json → Option (GoMap Json)
  | .obj b =>
    match GoMap.get b "value" with
    | some (.obj val) => some val
    | _ => none
  | _ => none

/-- Whether the `value` field of a child, if the child has one, holds a map. -/
def valueIsMap : Json → Bool
  | .obj b =>
    match GoMap.get b "value" with
    | some (.obj _) => true
    | some _ => false
    | none => true
  | _ => true

/-! ## Map lemmas -/

theorem GoMap.get_set {β : Type} (m : GoMap β) (k : String) (v : β) (k' : String) :
    GoMap.get (GoMap.set m k v) k' = if k = k' then some v else GoMap.get m k' := by
  induction m with
  | nil => simp [GoMap.set, GoMap.get]
  | cons hd tl ih =>
    obtain ⟨a, b⟩ := hd
    by_cases h : a = k
    · subst h
      by_cases h' : a = k' <;> simp [GoMap.set, GoMap.get, h']
    · by_cases h' : k = k'
      · subst h'
        simp [GoMap.set, GoMap.get, h, ih]
      · have hk : ¬ k' = k := fun e => h' e.symm
        by_cases h'' : a = k'
        · subst h''
          simp [GoMap.set, GoMap.get, hk, h']
        · simp [GoMap.set, GoMap.get, h, h', h'', ih]

theorem GoMap.keys_set {β : Type} (m : GoMap β) (k : String) (v : β) :
    GoMap.keys (GoMap.set m k v) = if k ∈ GoMap.keys m then GoMap.keys m else GoMap.keys m ++ [k] := by
  induction m with
  | nil => simp [GoMap.set, GoMap.keys]
  | cons hd tl ih =>
    obtain ⟨a, b⟩ := hd
    by_cases h : a = k
    · subst h
      simp [GoMap.set, GoMap.keys]
    · have hk : ¬ k = a := fun e => h e.symm
      simp only [GoMap.keys] at ih
      by_cases hm : k ∈ List.map Prod.fst tl
      · simp [GoMap.set, GoMap.keys, h, hk, hm, ih]
      · simp [GoMap.set, GoMap.keys, h, hk, hm, ih]

theorem GoMap.nodup_set {β : Type} (m : GoMap β) (k : String) (v : β)
    (h : (GoMap.keys m).Nodup) : (GoMap.keys (GoMap.set m k v)).Nodup := by
  rw [GoMap.keys_set]
  by_cases hm : k ∈ GoMap.keys m
  · simpa [hm] using h
  · simp only [hm, if_false]
    rw [List.nodup_append]
    refine ⟨h, List.nodup_singleton k, ?_⟩
    intro a ha hb
    simp only [List.mem_singleton] at hb
    subst hb
    exact hm ha

theorem GoMap.mem_keys_iff {β : Type} (m : GoMap β) (k : String) :
    k ∈ GoMap.keys m ↔ (GoMap.get m k).isSome = true := by
  induction m with
  | nil => simp [GoMap.keys, GoMap.get]
  | cons hd tl ih =>
    obtain ⟨a, b⟩ := hd
    simp only [GoMap.keys] at ih
    by_cases h : a = k
    · simp [GoMap.keys, GoMap.get, h]
    · have hk : ¬ k = a := fun e => h e.symm
      simp [GoMap.keys, GoMap.get, h, hk, ih]

theorem toString_eq_decimal (p : Int) : toString p = decimal p := by
  cases p <;> rfl

theorem nodeKey_eq (i : Instance) : nodeKey i = i.Ip ++ ":" ++ decimal i.Port := by
  unfold nodeKey
  rw [toString_eq_decimal]

theorem buildNodes_eq (l : List Instance) :
    buildNodes l
      = l.foldl (fun nodes i => GoMap.set nodes (i.Ip ++ ":" ++ decimal i.Port) i.Weight) [] := by
  unfold buildNodes
  have hfun : (fun (nodes : GoMap GoFloat32) (i : Instance) => GoMap.set nodes (nodeKey i) i.Weight)
      = (fun nodes i => GoMap.set nodes (i.Ip ++ ":" ++ decimal i.Port) i.Weight) := by
    funext nodes i
    rw [nodeKey_eq]
  rw [hfun]

theorem foldl_nodes_get (l : List Instance) (m : GoMap GoFloat32) (k : String) :
    GoMap.get (l.foldl (fun nodes i => GoMap.set nodes (i.Ip ++ ":" ++ decimal i.Port) i.Weight) m) k
      = (lastWeight k l).orElse (fun _ => GoMap.get m k) := by
  induction l generalizing m with
  | nil => simp [lastWeight]
  | cons i rest ih =>
    rw [List.foldl_cons, ih, GoMap.get_set]
    unfold lastWeight
    rw [List.reverse_cons, List.find?_append]
    cases hrest : List.find? (fun i => decide (i.Ip ++ ":" ++ decimal i.Port = k)) rest.reverse with
    | some j => simp
    | none =>
      by_cases hk : i.Ip ++ ":" ++ decimal i.Port = k <;> simp [hk]

theorem foldl_nodes_nodup (l : List Instance) (m : GoMap GoFloat32)
    (h : (GoMap.keys m).Nodup) :
    (GoMap.keys (l.foldl
      (fun nodes i => GoMap.set nodes (i.Ip ++ ":" ++ decimal i.Port) i.Weight) m)).Nodup := by
  induction l generalizing m with
  | nil => simpa using h
  | cons i rest ih =>
    rw [List.foldl_cons]
    exact ih _ (GoMap.nodup_set m _ _ h)

/-! ## Instance translation -/

/-- Claim C2: the Node Map built by `SyncInstances` from an instance list (non-empty or
not) has pairwise distinct keys; a string is a key exactly when it is
`ip + ":" + decimal(port)` for an instance of the list, so there is one entry per
distinct such string; and the value stored under a key is the weight of the last
instance of the list with that key (a later duplicate overwrites an earlier one). -/
theorem buildNodes_last_wins (l : List Instance) :
    (GoMap.keys (buildNodes l)).Nodup ∧
    (∀ k, k ∈ GoMap.keys (buildNodes l) ↔ ∃ i ∈ l, i.Ip ++ ":" ++ decimal i.Port = k) ∧
    (∀ k, GoMap.get (buildNodes l) k = lastWeight k l) ∧
    (∀ i ∈ l, ∃ j ∈ l, j.Ip ++ ":" ++ decimal j.Port = i.Ip ++ ":" ++ decimal i.Port ∧
      GoMap.get (buildNodes l) (i.Ip ++ ":" ++ decimal i.Port) = some j.Weight) ∧
    (∀ front back i, l = front ++ i :: back →
      (∀ j ∈ back, j.Ip ++ ":" ++ decimal j.Port ≠ i.Ip ++ ":" ++ decimal i.Port) →
      GoMap.get (buildNodes l) (i.Ip ++ ":" ++ decimal i.Port) = some i.Weight) := by
  have hget : ∀ k, GoMap.get (buildNodes l) k = lastWeight k l := by
    intro k
    rw [buildNodes_eq, foldl_nodes_get]
    cases lastWeight k l <;> simp [GoMap.get]
  refine ⟨?_, ?_, hget, ?_, ?_⟩
  · rw [buildNodes_eq]
    exact foldl_nodes_nodup l [] (by simp [GoMap.keys])
  · intro k
    rw [GoMap.mem_keys_iff, hget]
    unfold lastWeight
    rw [Option.isSome_map']
    rw [List.find?_isSome]
    simp
  · intro i hi
    have hsome : (List.find?
        (fun j => decide (j.Ip ++ ":" ++ decimal j.Port = i.Ip ++ ":" ++ decimal i.Port))
        l.reverse).isSome = true := by
      rw [List.find?_isSome]
      exact ⟨i, by simpa using hi, by simp⟩
    obtain ⟨j, hj⟩ := Option.isSome_iff_exists.mp hsome
    refine ⟨j, ?_, ?_, ?_⟩
    · have := List.mem_of_find?_eq_some hj
      simpa using this
    · have := List.find?_some hj
      simpa using this
    · rw [hget]
      simp [lastWeight, hj]
  · intro front back i hl hback
    rw [hget, hl]
    unfold lastWeight
    rw [List.reverse_append, List.reverse_cons, List.find?_append, List.find?_append]
    have hnone : List.find?
        (fun j => decide (j.Ip ++ ":" ++ decimal j.Port = i.Ip ++ ":" ++ decimal i.Port))
        back.reverse = none := by
      rw [List.find?_eq_none]
      intro j hj
      simpa using hback j (by simpa using hj)
    rw [hnone]
    simp

/-- Worked example for C2: of three instances, the first and the third at
`10.0.0.1` port `8080` and the second at `10.0.0.2` port `80`, the Node Map has the
two keys `10.0.0.1:8080` and `10.0.0.2:80`, and `10.0.0.1:8080` holds the weight of
the third instance. -/
theorem buildNodes_last_wins_example :
    buildNodes [⟨⟨1⟩, "10.0.0.1", 8080⟩, ⟨⟨2⟩, "10.0.0.2", 80⟩, ⟨⟨3⟩, "10.0.0.1", 8080⟩]
      = [("10.0.0.1:8080", ⟨3⟩), ("10.0.0.2:80", ⟨2⟩)] ∧
    GoMap.get
      (buildNodes [⟨⟨1⟩, "10.0.0.1", 8080⟩, ⟨⟨2⟩, "10.0.0.2", 80⟩, ⟨⟨3⟩, "10.0.0.1", 8080⟩])
      "10.0.0.1:8080" = some ⟨3⟩ ∧
    GoMap.get
      (buildNodes [⟨⟨1⟩, "10.0.0.1", 8080⟩, ⟨⟨2⟩, "10.0.0.2", 80⟩, ⟨⟨3⟩, "10.0.0.1", 8080⟩])
      "10.0.0.2:80" = some ⟨2⟩ ∧
    GoMap.get
      (buildNodes [⟨⟨1⟩, "10.0.0.1", 8080⟩, ⟨⟨2⟩, "10.0.0.2", 80⟩, ⟨⟨3⟩, "10.0.0.1", 8080⟩])
      "10.0.0.3:80" = none :=
  have h := buildNodes_last_wins
    [⟨⟨1⟩, "10.0.0.1", 8080⟩, ⟨⟨2⟩, "10.0.0.2", 80⟩, ⟨⟨3⟩, "10.0.0.1", 8080⟩]
  ⟨rfl, (h.2.2.1 "10.0.0.1:8080").trans rfl, (h.2.2.1 "10.0.0.2:80").trans rfl,
    (h.2.2.1 "10.0.0.3:80").trans rfl⟩

/-! ## `SyncInstances` -/

theorem not_both_empty {diffIns discoveryInstances : List Instance}
    (hne : discoveryInstances ≠ []) :
    ¬ (diffIns.length = 0 ∧ discoveryInstances.length = 0) := by
  intro h
  exact hne (List.length_eq_zero.mp h.2)

/-- The method `SyncInstances` never assigns to the receiver: the cache and the lock are
as before. -/
theorem SyncInstances_client (d : Deps) (c : ApisixClient) (name tpl : String)
    (discoveryInstances diffIns : List Instance) :
    (SyncInstances d c name tpl discoveryInstances diffIns).client = c := by
  unfold SyncInstances
  split
  · rfl
  · split
    · rfl
    · dsimp only
      split
      · rfl
      · split
        · rfl
        · split
          · rfl
          · split <;> rfl

/-- The write of `SyncInstances` once lines 119-153 have fixed method, path and body. -/
theorem SyncInstances_trace_of_prepare (d : Deps) (c : ApisixClient) (name tpl : String)
    (discoveryInstances diffIns : List Instance) (method upstreamId body : String)
    (hne : discoveryInstances ≠ [])
    (hprep : prepareWrite d c name tpl discoveryInstances = .ok (method, upstreamId, body))
    (hurl : d.urlParses (c.Config.AdminUrl ++ c.Config.Prefix ++ upstreamId) = true) :
    (SyncInstances d c name tpl discoveryInstances diffIns).trace =
      [⟨method, c.Config.AdminUrl ++ c.Config.Prefix ++ upstreamId,
        [("Accept", "application/json"), ("X-API-KEY", apiKey c)], body⟩] := by
  unfold SyncInstances
  rw [if_neg (not_both_empty hne), hprep]
  simp only [newRequest, hurl, if_true, addHeaders, List.nil_append]
  split
  · rfl
  · split
    · rfl
    · split <;> rfl

/-- Claim C1 (amended): for a non-empty desired list `SyncInstances` issues the write
the cache decides, provided `http.NewRequest` accepts the URL.  A cached path `p` gives
exactly one PATCH to `AdminUrl + Prefix + p + "/nodes"` whose body is the serialised
Node Map.  An unknown name with a creation template that parses (the caller's, or the
default one when the caller's is empty) gives exactly one PUT to
`AdminUrl + Prefix + "upstreams/" + name` whose body is the rendered template, or the
empty body when rendering fails.  An unknown name with a template that does not parse
gives no request at all: the parse error is returned. -/
theorem SyncInstances_write_shape (d : Deps) (c : ApisixClient) (name tpl : String)
    (discoveryInstances diffIns : List Instance) (hne : discoveryInstances ≠ []) :
    (∀ p, c.cached name = some p →
      d.urlParses (c.Config.AdminUrl ++ c.Config.Prefix ++ p ++ "/nodes") = true →
      (SyncInstances d c name tpl discoveryInstances diffIns).trace =
        [⟨"PATCH", c.Config.AdminUrl ++ c.Config.Prefix ++ p ++ "/nodes",
          [("Accept", "application/json"), ("X-API-KEY", apiKey c)],
          d.jsonMarshalNodes (buildNodes discoveryInstances)⟩]) ∧
    (c.cached name = none →
      d.templateParse (if tpl.length = 0 then DefaultApisixUpstreamTemplate else tpl) = none →
      d.urlParses (c.Config.AdminUrl ++ c.Config.Prefix ++ "upstreams/" ++ name) = true →
      (SyncInstances d c name tpl discoveryInstances diffIns).trace =
        [⟨"PUT", c.Config.AdminUrl ++ c.Config.Prefix ++ "upstreams/" ++ name,
          [("Accept", "application/json"), ("X-API-KEY", apiKey c)],
          match d.templateExecute (if tpl.length = 0 then DefaultApisixUpstreamTemplate else tpl)
              name (d.jsonMarshalNodes (buildNodes discoveryInstances)) with
          | .ok rendered => rendered
          | .error _ => ""⟩]) ∧
    (∀ e, c.cached name = none →
      d.templateParse (if tpl.length = 0 then DefaultApisixUpstreamTemplate else tpl) = some e →
      (SyncInstances d c name tpl discoveryInstances diffIns).trace = [] ∧
      (SyncInstances d c name tpl discoveryInstances diffIns).outcome = .returned (some e)) := by
  refine ⟨?_, ?_, ?_⟩
  · intro p hp hurl
    have hprep : prepareWrite d c name tpl discoveryInstances
        = .ok ("PATCH", p ++ "/nodes", d.jsonMarshalNodes (buildNodes discoveryInstances)) := by
      simp [prepareWrite, hp]
    have hassoc : c.Config.AdminUrl ++ c.Config.Prefix ++ p ++ "/nodes"
        = c.Config.AdminUrl ++ c.Config.Prefix ++ (p ++ "/nodes") := by
      simp [String.append_assoc]
    rw [hassoc] at hurl ⊢
    exact SyncInstances_trace_of_prepare d c name tpl discoveryInstances diffIns _ _ _ hne hprep hurl
  · intro hmiss hparse hurl
    have hprep : prepareWrite d c name tpl discoveryInstances
        = .ok ("PUT", fetchAllUpstream ++ "/" ++ name,
            match d.templateExecute (if tpl.length = 0 then DefaultApisixUpstreamTemplate else tpl)
                name (d.jsonMarshalNodes (buildNodes discoveryInstances)) with
            | .ok rendered => rendered
            | .error _ => "") := by
      simp only [prepareWrite, hmiss, hparse]
    have hassoc : c.Config.AdminUrl ++ c.Config.Prefix ++ "upstreams/" ++ name
        = c.Config.AdminUrl ++ c.Config.Prefix ++ (fetchAllUpstream ++ "/" ++ name) := by
      have h1 : fetchAllUpstream ++ "/" = "upstreams/" := by decide
      rw [h1]
      simp [String.append_assoc]
    rw [hassoc] at hurl ⊢
    exact SyncInstances_trace_of_prepare d c name tpl discoveryInstances diffIns _ _ _ hne hprep hurl
  · intro e hmiss hparse
    have hprep : prepareWrite d c name tpl discoveryInstances = .error e := by
      simp only [prepareWrite, hmiss, hparse]
    unfold SyncInstances
    rw [if_neg (not_both_empty hne), hprep]
    exact ⟨rfl, rfl⟩

/-- Worked example for C1: a cached name gives one PATCH with the Node Map as body, and
an unknown name with the template `{{.Name}}` gives one PUT with the rendered body. -/
theorem SyncInstances_write_shape_example :
    [exampleInstance] ≠ [] ∧
    cachedClient.cached "svcA" = some "upstreams/7" ∧
    (SyncInstances exampleDeps cachedClient "svcA" "" [exampleInstance] []).trace =
      [⟨"PATCH", "http://127.0.0.1:9080/apisix/admin/upstreams/7/nodes", exampleHeaders,
        "[10.0.0.1:8080=1]"⟩] ∧
    exampleClient.cached "svcA" = none ∧
    (SyncInstances exampleDeps exampleClient "svcA" "\x7b\x7b.Name\x7d\x7d" [exampleInstance] []).trace =
      [⟨"PUT", "http://127.0.0.1:9080/apisix/admin/upstreams/svcA", exampleHeaders, "svcA"⟩] :=
  ⟨by decide, rfl,
   (SyncInstances_write_shape exampleDeps cachedClient "svcA" "" [exampleInstance] []
      (by decide)).1 "upstreams/7" rfl rfl,
   rfl,
   (SyncInstances_write_shape exampleDeps exampleClient "svcA" "\x7b\x7b.Name\x7d\x7d"
      [exampleInstance] [] (by decide)).2.1 rfl rfl rfl⟩

/-- Claim C1 as stated fails: for the unknown name `svcA`, a non-empty desired list and
the caller's template `{{.Name` (an unclosed action, which `text/template` rejects),
`SyncInstances` issues no request, so not exactly one, and returns the parse error. -/
theorem SyncInstances_no_request_on_bad_template :
    exampleClient.cached "svcA" = none ∧ [exampleInstance] ≠ [] ∧
    (SyncInstances exampleDeps exampleClient "svcA" "\x7b\x7b.Name" [exampleInstance] []).trace = [] ∧
    (∀ req, (SyncInstances exampleDeps exampleClient "svcA" "\x7b\x7b.Name"
        [exampleInstance] []).trace ≠ [req]) ∧
    (SyncInstances exampleDeps exampleClient "svcA" "\x7b\x7b.Name" [exampleInstance] []).outcome
      = .returned (some "unclosed action") := by
  have htrace : (SyncInstances exampleDeps exampleClient "svcA" "\x7b\x7b.Name"
      [exampleInstance] []).trace = [] := rfl
  refine ⟨rfl, by decide, htrace, ?_, rfl⟩
  intro req h
  rw [htrace] at h
  cases h

/-- When `SyncInstances` issued the request `req`, its outcome is decided by what
`hc.Do` returned for `req`, and the status code plays no part in it. -/
theorem SyncInstances_outcome_of_trace (d : Deps) (c : ApisixClient) (name tpl : String)
    (discoveryInstances diffIns : List Instance) (req : Request)
    (hreq : (SyncInstances d c name tpl discoveryInstances diffIns).trace = [req]) :
    (SyncInstances d c name tpl discoveryInstances diffIns).outcome = afterWrite (d.httpDo req) := by
  by_cases hguard : diffIns.length = 0 ∧ discoveryInstances.length = 0
  · simp only [SyncInstances, if_pos hguard] at hreq
    cases hreq
  · cases hprep : prepareWrite d c name tpl discoveryInstances with
    | error e =>
      simp only [SyncInstances, if_neg hguard, hprep] at hreq
      cases hreq
    | ok w =>
      obtain ⟨method, upstreamId, body⟩ := w
      cases hnew : newRequest d method (c.Config.AdminUrl ++ c.Config.Prefix ++ upstreamId) body with
      | none =>
        simp only [SyncInstances, if_neg hguard, hprep, hnew] at hreq
        cases hreq
      | some req0 =>
        simp only [SyncInstances, if_neg hguard, hprep, hnew] at hreq ⊢
        cases hresp : (d.httpDo (addHeaders c req0)).resp with
        | none =>
          simp only [hresp, List.cons.injEq, and_true] at hreq
          subst hreq
          simp [afterWrite, hresp]
        | some resp =>
          cases herr : (d.httpDo (addHeaders c req0)).err with
          | some e =>
            simp only [hresp, herr, List.cons.injEq, and_true] at hreq
            subst hreq
            simp [afterWrite, hresp, herr]
          | none =>
            have hreq' : addHeaders c req0 = req := by
              simp only [hresp, herr] at hreq
              split at hreq <;> simpa using hreq
            subst hreq'
            simp only [hresp, herr, afterWrite]
            split <;> rfl

/-- The request issued by `SyncInstances` does not depend on how `hc.Do` answers. -/
theorem SyncInstances_trace_httpDo (d : Deps) (f : Request → HttpResult) (c : ApisixClient)
    (name tpl : String) (discoveryInstances diffIns : List Instance) :
    (SyncInstances { d with httpDo := f } c name tpl discoveryInstances diffIns).trace
      = (SyncInstances d c name tpl discoveryInstances diffIns).trace := by
  have hprep : prepareWrite { d with httpDo := f } c name tpl discoveryInstances
      = prepareWrite d c name tpl discoveryInstances := rfl
  have hnew : ∀ m u b, newRequest { d with httpDo := f } m u b = newRequest d m u b :=
    fun _ _ _ => rfl
  by_cases hguard : diffIns.length = 0 ∧ discoveryInstances.length = 0
  · simp only [SyncInstances, if_pos hguard]
  · cases hp : prepareWrite d c name tpl discoveryInstances with
    | error e => simp only [SyncInstances, if_neg hguard, hprep, hp]
    | ok w =>
      obtain ⟨method, upstreamId, body⟩ := w
      cases hn : newRequest d method (c.Config.AdminUrl ++ c.Config.Prefix ++ upstreamId) body with
      | none => simp only [SyncInstances, if_neg hguard, hprep, hp, hnew, hn]
      | some req0 =>
        have key : ∀ d1 : Deps, prepareWrite d1 c name tpl discoveryInstances = .ok (method, upstreamId, body) →
            newRequest d1 method (c.Config.AdminUrl ++ c.Config.Prefix ++ upstreamId) body = some req0 →
            (SyncInstances d1 c name tpl discoveryInstances diffIns).trace = [addHeaders c req0] := by
          intro d1 h1 h2
          simp only [SyncInstances, if_neg hguard, h1, h2]
          split
          · rfl
          · split
            · rfl
            · split <;> rfl
        rw [key d hp hn, key _ (hprep.trans hp) ((hnew _ _ _).trans hn)]

/-- Claim C6: when the write request of `SyncInstances` is answered without transport
error, the call returns a nil error whatever the status code of the response, so also
for a status code of 400 or more; answering the same request with any other response
(one with a status below 400, say) gives the same result. -/
theorem SyncInstances_status_swallowed (d : Deps) (c : ApisixClient) (name tpl : String)
    (discoveryInstances diffIns : List Instance) (req : Request) (resp : Response)
    (hreq : (SyncInstances d c name tpl discoveryInstances diffIns).trace = [req])
    (hdo : d.httpDo req = ⟨some resp, none⟩) :
    (SyncInstances d c name tpl discoveryInstances diffIns).outcome = .returned none ∧
    ∀ resp2 : Response,
      (SyncInstances { d with httpDo := fun _ => ⟨some resp2, none⟩ } c name tpl
          discoveryInstances diffIns).outcome
        = (SyncInstances d c name tpl discoveryInstances diffIns).outcome := by
  have h1 := SyncInstances_outcome_of_trace d c name tpl discoveryInstances diffIns req hreq
  rw [hdo] at h1
  refine ⟨h1, ?_⟩
  intro resp2
  have htr := SyncInstances_trace_httpDo d (fun _ => ⟨some resp2, none⟩) c name tpl
    discoveryInstances diffIns
  rw [hreq] at htr
  rw [SyncInstances_outcome_of_trace _ c name tpl discoveryInstances diffIns req htr, h1]
  rfl

/-- Worked example for C6: a PATCH answered with status 500 still returns a nil error. -/
theorem SyncInstances_status_swallowed_example :
    (SyncInstances rejectingDeps cachedClient "svcA" "" [exampleInstance] []).outcome
      = .returned none :=
  (SyncInstances_status_swallowed rejectingDeps cachedClient "svcA" "" [exampleInstance] []
    ⟨"PATCH", "http://127.0.0.1:9080/apisix/admin/upstreams/7/nodes", exampleHeaders,
      "[10.0.0.1:8080=1]"⟩ ⟨500, "error"⟩ rfl rfl).1

/-- Whenever the transport fails with a nil response, `SyncInstances` panics at line 164
(`resp.Body` on the nil response) before reaching the error check of line 169. -/
theorem SyncInstances_nil_response_panics (d : Deps) (c : ApisixClient) (name tpl : String)
    (discoveryInstances diffIns : List Instance) (req : Request)
    (hreq : (SyncInstances d c name tpl discoveryInstances diffIns).trace = [req])
    (hresp : (d.httpDo req).resp = none) :
    (SyncInstances d c name tpl discoveryInstances diffIns).outcome = .panicked := by
  rw [SyncInstances_outcome_of_trace d c name tpl discoveryInstances diffIns req hreq]
  unfold afterWrite
  rw [hresp]

/-- Claim C5 at a failing input: with a non-empty desired set and a transport that
returns an error and no response, `SyncInstances` issues its PATCH and then panics; it
does not return the transport error. -/
theorem SyncInstances_transport_failure_panics :
    (SyncInstances failingDeps cachedClient "svcA" "" [exampleInstance] []).outcome = .panicked ∧
    (SyncInstances failingDeps cachedClient "svcA" "" [exampleInstance] []).outcome
      ≠ .returned (some "dial tcp 127.0.0.1:9080: connection refused") ∧
    (SyncInstances failingDeps cachedClient "svcA" "" [exampleInstance] []).trace.length = 1 := by
  have hp : (SyncInstances failingDeps cachedClient "svcA" "" [exampleInstance] []).outcome
      = .panicked := rfl
  refine ⟨hp, ?_, rfl⟩
  rw [hp]
  intro h
  cases h


/-! ## `GetServiceAllInstances` -/

theorem splitChars_ne_nil (sep : Char) (l : List Char) : splitChars sep l ≠ [] := by
  cases l with
  | nil => simp [splitChars]
  | cons ch cs =>
    unfold splitChars
    split
    · simp
    · split <;> simp

theorem splitChars_of_mem (sep : Char) (l : List Char) (h : sep ∈ l) :
    ∃ t0 t1 rest, splitChars sep l = t0 :: t1 :: rest := by
  induction l with
  | nil => simp at h
  | cons ch cs ih =>
    unfold splitChars
    by_cases hc : ch = sep
    · rw [if_pos hc]
      cases hs : splitChars sep cs with
      | nil => exact absurd hs (splitChars_ne_nil sep cs)
      | cons p ps => exact ⟨[], p, ps, rfl⟩
    · rw [if_neg hc]
      have hmem : sep ∈ cs := by
        rcases List.mem_cons.mp h with h1 | h1
        · exact absurd h1.symm hc
        · exact h1
      obtain ⟨t0, t1, rest, hs⟩ := ih hmem
      rw [hs]
      exact ⟨ch :: t0, t1, rest, rfl⟩

theorem parseHosts_ok (d : Deps) (hosts : GoMap Int) (acc : List Instance)
    (h : ∀ hw ∈ hosts, ':' ∈ hw.1.toList) :
    ∃ instances, parseHosts d hosts acc = some instances := by
  induction hosts generalizing acc with
  | nil => exact ⟨acc, rfl⟩
  | cons hd tl ih =>
    obtain ⟨host, weight⟩ := hd
    obtain ⟨t0, t1, rest, hs⟩ := splitChars_of_mem ':' host.toList (h (host, weight) (by simp))
    have hsplit : stringsSplitColon host = String.mk t0 :: String.mk t1 :: rest.map String.mk := by
      unfold stringsSplitColon
      rw [hs]
      rfl
    unfold parseHosts
    rw [hsplit]
    exact ih _ (fun hw hmem => h hw (List.mem_cons_of_mem _ hmem))

theorem indexNodes_ok (d : Deps) (upstreamName : String) (nodes : List ApisixNode)
    (m : GoMap String) (acc : List Instance)
    (h : ∀ n ∈ nodes, n.Value.Name = upstreamName → ∀ hw ∈ n.Value.Nodes, ':' ∈ hw.1.toList) :
    ∃ instances, indexNodes d upstreamName nodes m acc = (indexAll nodes m, some instances) := by
  induction nodes generalizing m acc with
  | nil => exact ⟨acc, rfl⟩
  | cons n rest ih =>
    have hrest : ∀ n' ∈ rest, n'.Value.Name = upstreamName →
        ∀ hw ∈ n'.Value.Nodes, ':' ∈ hw.1.toList :=
      fun n' hn' => h n' (List.mem_cons_of_mem _ hn')
    have hpath : fetchAllUpstream ++ "/" ++ n.Value.Id = "upstreams/" ++ n.Value.Id := by
      have h1 : fetchAllUpstream ++ "/" = "upstreams/" := by decide
      rw [h1]
    unfold indexNodes
    simp only [hpath, indexAll, List.foldl_cons]
    by_cases hname : upstreamName ≠ n.Value.Name
    · rw [if_pos hname]
      exact ih _ _ hrest
    · rw [if_neg hname]
      have hname' : n.Value.Name = upstreamName := by
        by_contra hc
        exact hname (fun e => hc e.symm)
      obtain ⟨instances1, hp⟩ := parseHosts_ok d n.Value.Nodes acc (h n (by simp) hname')
      rw [hp]
      exact ih _ _ hrest

theorem indexAll_get (nodes : List ApisixNode) (m : GoMap String) (k : String) :
    GoMap.get (indexAll nodes m) k =
      match lastNamed k nodes with
      | some n => some ("upstreams/" ++ n.Value.Id)
      | none => GoMap.get m k := by
  induction nodes generalizing m with
  | nil => simp [indexAll, lastNamed]
  | cons n rest ih =>
    have hstep : indexAll (n :: rest) m
        = indexAll rest (GoMap.set m n.Value.Name ("upstreams/" ++ n.Value.Id)) := rfl
    rw [hstep, ih, GoMap.get_set]
    unfold lastNamed
    rw [List.reverse_cons, List.find?_append]
    cases hrest : List.find? (fun n => decide (n.Value.Name = k)) rest.reverse with
    | some j => simp
    | none =>
      by_cases hk : n.Value.Name = k <;> simp [hk]

/-- The call for an unknown name, lock free, whose listing is answered and decoded:
what is left is the loop over the listed nodes. -/
theorem GetServiceAllInstances_listing (d : Deps) (c : ApisixClient) (upstreamName : String)
    (resp : Response) (r : ApisixNodeResp)
    (hfree : c.locked = false)
    (hmiss : c.cached upstreamName = none)
    (hurl : d.urlParses (c.Config.AdminUrl ++ c.Config.Prefix ++ "upstreams") = true)
    (hdo : d.httpDo (listingRequest c) = ⟨some resp, none⟩)
    (hdec : d.decodeNodeResp resp.Body = (r, none)) :
    GetServiceAllInstances d c upstreamName =
      match indexNodes d upstreamName r.Node.Nodes (c.UpstreamIdMap.getD []) [] with
      | (m, none) => ⟨⟨c.Config, some m, true⟩, [listingRequest c], .panicked⟩
      | (m, some instances) =>
        ⟨⟨c.Config, some m, false⟩, [listingRequest c], .returned (instances, none)⟩ := by
  have hmiss' : GoMap.get (c.UpstreamIdMap.getD []) upstreamName = none := hmiss
  have hurl' : d.urlParses (c.Config.AdminUrl ++ c.Config.Prefix ++ fetchAllUpstream) = true := hurl
  have hreq : addHeaders c ⟨"GET", c.Config.AdminUrl ++ c.Config.Prefix ++ fetchAllUpstream, [], ""⟩
      = listingRequest c := rfl
  unfold GetServiceAllInstances
  simp only [hfree, hmiss', newRequest, hurl', if_true, hreq, hdo, hdec]
  simp

/-- Indexing by a listing whose keys are well formed: a call of `GetServiceAllInstances`
for a name that is not in the cache, whose listing is answered and decoded without
error and whose Node Map keys contain a colon in the records bearing the resolved
name, issues the listing call, returns a nil error and leaves every listed record
indexed: each listed name is cached under `"upstreams/"` + id of the last record of
that name, whether or not the name is the resolved one, and every name absent from the
listing keeps the cache entry (or absence of entry) it had. -/
theorem GetServiceAllInstances_indexes_listing (d : Deps) (c : ApisixClient)
    (upstreamName : String) (resp : Response) (r : ApisixNodeResp)
    (hfree : c.locked = false)
    (hmiss : c.cached upstreamName = none)
    (hurl : d.urlParses (c.Config.AdminUrl ++ c.Config.Prefix ++ "upstreams") = true)
    (hdo : d.httpDo (listingRequest c) = ⟨some resp, none⟩)
    (hdec : d.decodeNodeResp resp.Body = (r, none))
    (hwf : ∀ n ∈ r.Node.Nodes, n.Value.Name = upstreamName →
      ∀ hw ∈ n.Value.Nodes, ':' ∈ hw.1.toList) :
    (∃ instances, (GetServiceAllInstances d c upstreamName).outcome = .returned (instances, none)) ∧
    (GetServiceAllInstances d c upstreamName).trace = [listingRequest c] ∧
    (∀ n ∈ r.Node.Nodes, ∃ n1 ∈ r.Node.Nodes, n1.Value.Name = n.Value.Name ∧
      lastNamed n.Value.Name r.Node.Nodes = some n1 ∧
      (GetServiceAllInstances d c upstreamName).client.cached n.Value.Name
        = some ("upstreams/" ++ n1.Value.Id)) ∧
    (∀ k, (∀ n ∈ r.Node.Nodes, n.Value.Name ≠ k) →
      (GetServiceAllInstances d c upstreamName).client.cached k = c.cached k) := by
  obtain ⟨instances, hidx⟩ := indexNodes_ok d upstreamName r.Node.Nodes (c.UpstreamIdMap.getD []) [] hwf
  have hcall := GetServiceAllInstances_listing d c upstreamName resp r hfree hmiss hurl hdo hdec
  rw [hidx] at hcall
  have hcached : ∀ k, (GetServiceAllInstances d c upstreamName).client.cached k
      = match lastNamed k r.Node.Nodes with
        | some n => some ("upstreams/" ++ n.Value.Id)
        | none => c.cached k := by
    intro k
    rw [hcall]
    exact indexAll_get r.Node.Nodes (c.UpstreamIdMap.getD []) k
  refine ⟨⟨instances, by rw [hcall]⟩, by rw [hcall], ?_, ?_⟩
  · intro n hn
    have hsome : (lastNamed n.Value.Name r.Node.Nodes).isSome = true := by
      unfold lastNamed
      rw [List.find?_isSome]
      exact ⟨n, by simpa using hn, by simp⟩
    obtain ⟨n1, hn1⟩ := Option.isSome_iff_exists.mp hsome
    refine ⟨n1, ?_, ?_, hn1, ?_⟩
    · have := List.mem_of_find?_eq_some hn1
      simpa using this
    · have := List.find?_some hn1
      simpa using this
    · rw [hcached, hn1]
  · intro k hk
    have hnone : lastNamed k r.Node.Nodes = none := by
      unfold lastNamed
      rw [List.find?_eq_none]
      intro n hn
      simpa using hk n (by simpa using hn)
    rw [hcached, hnone]


/-- Worked example of the indexing: resolving the unknown name `svcA` against a listing
of `svcA` (id 7), `svcB` (id 8) and `svcA` (id 9), all with keys of the form
address:port, caches `svcB` under `upstreams/8` and `svcA` under `upstreams/9`. -/
theorem GetServiceAllInstances_indexes_listing_example :
    ((∃ instances, (GetServiceAllInstances listingDeps exampleClient "svcA").outcome
        = .returned (instances, none)) ∧
      (GetServiceAllInstances listingDeps exampleClient "svcA").trace
        = [listingRequest exampleClient]) ∧
    (GetServiceAllInstances listingDeps exampleClient "svcA").client.cached "svcA"
      = some "upstreams/9" ∧
    (GetServiceAllInstances listingDeps exampleClient "svcA").client.cached "svcB"
      = some "upstreams/8" ∧
    (GetServiceAllInstances listingDeps exampleClient "svcA").client.cached "svcC" = none :=
  have h := GetServiceAllInstances_indexes_listing listingDeps exampleClient "svcA" ⟨200, ""⟩
    (listingDeps.decodeNodeResp "").1 rfl rfl rfl rfl rfl (by decide)
  ⟨⟨h.1, h.2.1⟩, rfl, rfl, rfl⟩

/-- Claim C3 at a failing input: the name `svcA` is not in the cache, the lock is free,
the listing is answered and decoded without error and holds the records `svcA` (id 7,
Node Map key `example.com`, an address without port) and `svcB` (id 8).  The call
issues the listing request, indexes `svcA`, and panics at `ts[1]` (line 89) on the
key without a colon: it does not return, `svcB` is never indexed, and the mutex stays
locked. -/
theorem GetServiceAllInstances_panics_on_key_without_port :
    exampleClient.locked = false ∧
    exampleClient.cached "svcA" = none ∧
    portlessDeps.httpDo (listingRequest exampleClient) = ⟨some ⟨200, ""⟩, none⟩ ∧
    (portlessDeps.decodeNodeResp "").2 = none ∧
    (portlessDeps.decodeNodeResp "").1.Node.Nodes.map (fun n => (n.Value.Name, n.Value.Id))
      = [("svcA", "7"), ("svcB", "8")] ∧
    (GetServiceAllInstances portlessDeps exampleClient "svcA").trace
      = [listingRequest exampleClient] ∧
    (GetServiceAllInstances portlessDeps exampleClient "svcA").outcome = .panicked ∧
    (GetServiceAllInstances portlessDeps exampleClient "svcA").client.cached "svcA"
      = some "upstreams/7" ∧
    (GetServiceAllInstances portlessDeps exampleClient "svcA").client.cached "svcB" = none ∧
    (GetServiceAllInstances portlessDeps exampleClient "svcA").client.locked = true :=
  ⟨rfl, rfl, rfl, rfl, rfl, rfl, rfl, rfl, rfl, rfl⟩

/-- The request of `GetServiceAllInstances` when the lock is free and the URL is
accepted: a GET of the cached path, or of the whole collection for an unknown name. -/
theorem GetServiceAllInstances_trace (d : Deps) (c : ApisixClient) (upstreamName : String)
    (hfree : c.locked = false)
    (hurl : d.urlParses (c.Config.AdminUrl ++ c.Config.Prefix ++
      (match c.cached upstreamName with
        | some id => id
        | none => "upstreams")) = true) :
    (GetServiceAllInstances d c upstreamName).trace =
      [⟨"GET", c.Config.AdminUrl ++ c.Config.Prefix ++
          (match c.cached upstreamName with
            | some id => id
            | none => "upstreams"),
        [("Accept", "application/json"), ("X-API-KEY", apiKey c)], ""⟩] := by
  have hurl' : d.urlParses (c.Config.AdminUrl ++ c.Config.Prefix ++
      (match GoMap.get (c.UpstreamIdMap.getD []) upstreamName with
        | some id => id
        | none => fetchAllUpstream)) = true := hurl
  unfold GetServiceAllInstances
  simp only [hfree, newRequest, hurl', if_true]
  simp only [Bool.false_eq_true, if_false]
  split
  · rfl
  · split
    · rfl
    · split
      · rfl
      · split <;> rfl

/-- Every return of `GetServiceAllInstances` with an error leaves the mutex locked, and
every return without error leaves it free. -/
theorem GetServiceAllInstances_lock_after_return (d : Deps) (c : ApisixClient)
    (upstreamName : String) (instances : List Instance) (err : Option Error)
    (hfree : c.locked = false)
    (hret : (GetServiceAllInstances d c upstreamName).outcome = .returned (instances, err)) :
    (GetServiceAllInstances d c upstreamName).client.locked = err.isSome := by
  unfold GetServiceAllInstances at hret ⊢
  simp only [hfree, Bool.false_eq_true, if_false] at hret ⊢
  split at hret
  · cases hret
  · split at hret
    · cases hret
      rfl
    · split at hret
      · cases hret
      · split at hret
        · cases hret
          rfl
        · split at hret
          · cases hret
          · cases hret
            rfl

/-- Claim C10 at failing inputs: called with the lock free, `GetServiceAllInstances`
returns the transport error, respectively the JSON decode error, with the mutex still
locked. -/
theorem GetServiceAllInstances_lock_held_after_failure :
    exampleClient.locked = false ∧
    (GetServiceAllInstances failingDeps exampleClient "svcA").outcome
      = .returned ([], some "dial tcp 127.0.0.1:9080: connection refused") ∧
    (GetServiceAllInstances failingDeps exampleClient "svcA").client.locked = true ∧
    (GetServiceAllInstances badJsonDeps exampleClient "svcA").outcome
      = .returned ([], some "invalid character '<' looking for beginning of value") ∧
    (GetServiceAllInstances badJsonDeps exampleClient "svcA").client.locked = true :=
  ⟨rfl, rfl, rfl, rfl, rfl⟩

/-- Claim C4 as stated fails: after a first `SyncInstances` has created the unknown
upstream `svcA` (PUT answered with status 200, nil error returned), the cache still has
no entry for `svcA`; a second `SyncInstances` issues the PUT again (a create call, no
PATCH), and `GetServiceAllInstances` issues the listing call. -/
theorem second_sync_creates_again :
    exampleClient.cached "svcA" = none ∧
    (SyncInstances exampleDeps exampleClient "svcA" "\x7b\x7b.Nodes\x7d\x7d" [exampleInstance] []).outcome
      = .returned none ∧
    (SyncInstances exampleDeps exampleClient "svcA" "\x7b\x7b.Nodes\x7d\x7d" [exampleInstance] []).trace
      = [⟨"PUT", "http://127.0.0.1:9080/apisix/admin/upstreams/svcA", exampleHeaders,
          "[10.0.0.1:8080=1]"⟩] ∧
    (SyncInstances exampleDeps exampleClient "svcA" "\x7b\x7b.Nodes\x7d\x7d"
        [exampleInstance] []).client.cached "svcA" = none ∧
    (SyncInstances exampleDeps
        (SyncInstances exampleDeps exampleClient "svcA" "\x7b\x7b.Nodes\x7d\x7d" [exampleInstance] []).client
        "svcA" "\x7b\x7b.Nodes\x7d\x7d" [exampleInstance] []).trace
      = [⟨"PUT", "http://127.0.0.1:9080/apisix/admin/upstreams/svcA", exampleHeaders,
          "[10.0.0.1:8080=1]"⟩] ∧
    (∀ req ∈ (SyncInstances exampleDeps
        (SyncInstances exampleDeps exampleClient "svcA" "\x7b\x7b.Nodes\x7d\x7d" [exampleInstance] []).client
        "svcA" "\x7b\x7b.Nodes\x7d\x7d" [exampleInstance] []).trace, req.method ≠ "PATCH") ∧
    (GetServiceAllInstances exampleDeps
        (SyncInstances exampleDeps exampleClient "svcA" "\x7b\x7b.Nodes\x7d\x7d" [exampleInstance] []).client
        "svcA").trace
      = [⟨"GET", "http://127.0.0.1:9080/apisix/admin/upstreams", exampleHeaders, ""⟩] := by
  have h2 : (SyncInstances exampleDeps
        (SyncInstances exampleDeps exampleClient "svcA" "\x7b\x7b.Nodes\x7d\x7d" [exampleInstance] []).client
        "svcA" "\x7b\x7b.Nodes\x7d\x7d" [exampleInstance] []).trace
      = [⟨"PUT", "http://127.0.0.1:9080/apisix/admin/upstreams/svcA", exampleHeaders,
          "[10.0.0.1:8080=1]"⟩] := rfl
  refine ⟨rfl, rfl, rfl, rfl, h2, ?_, rfl⟩
  rw [h2]
  decide

/-- After a listing call for an unknown name that is answered, decoded and free of
malformed Node Map keys, the receiver has the lock free again, its configuration
unchanged and the listed records indexed. -/
theorem GetServiceAllInstances_client_after_listing (d : Deps) (c : ApisixClient)
    (upstreamName : String) (resp : Response) (r : ApisixNodeResp)
    (hfree : c.locked = false)
    (hmiss : c.cached upstreamName = none)
    (hurl : d.urlParses (c.Config.AdminUrl ++ c.Config.Prefix ++ "upstreams") = true)
    (hdo : d.httpDo (listingRequest c) = ⟨some resp, none⟩)
    (hdec : d.decodeNodeResp resp.Body = (r, none))
    (hwf : ∀ n ∈ r.Node.Nodes, n.Value.Name = upstreamName →
      ∀ hw ∈ n.Value.Nodes, ':' ∈ hw.1.toList) :
    (GetServiceAllInstances d c upstreamName).client
      = ⟨c.Config, some (indexAll r.Node.Nodes (c.UpstreamIdMap.getD [])), false⟩ ∧
    (GetServiceAllInstances d c upstreamName).trace = [listingRequest c] := by
  obtain ⟨instances, hidx⟩ := indexNodes_ok d upstreamName r.Node.Nodes (c.UpstreamIdMap.getD []) [] hwf
  have hcall := GetServiceAllInstances_listing d c upstreamName resp r hfree hmiss hurl hdo hdec
  rw [hidx] at hcall
  rw [hcall]
  exact ⟨rfl, rfl⟩

/-- Claim C4 (amended): `SyncInstances` never writes the cache, so after a first
reconciliation has created an unknown upstream the name is still unknown and the next
`GetServiceAllInstances` for it, called with the lock free, issues the listing call
again.  When that listing call is accepted by `http.NewRequest`, answered and decoded
without error, holds a record declaring the name (the last such record having id `i`)
and the Node Map keys of the records declaring the name contain a colon, then a
`SyncInstances` for the name with a non-empty desired set, its URL accepted, issues
exactly one PATCH to `AdminUrl + Prefix + "upstreams/" + i + "/nodes"` with the Node Map
as body and no create call, and a further `GetServiceAllInstances`, its URL accepted,
fetches `"upstreams/" + i` rather than the listing. -/
theorem patch_after_listing (d1 d2 d3 d4 : Deps) (c : ApisixClient) (name tpl : String)
    (ds1 diff1 ds diff : List Instance) (resp : Response) (r : ApisixNodeResp) (n : ApisixNode)
    (hfree : c.locked = false)
    (hmiss : c.cached name = none)
    (hurl : d2.urlParses (c.Config.AdminUrl ++ c.Config.Prefix ++ "upstreams") = true)
    (hdo : d2.httpDo (listingRequest c) = ⟨some resp, none⟩)
    (hdec : d2.decodeNodeResp resp.Body = (r, none))
    (hwf : ∀ n1 ∈ r.Node.Nodes, n1.Value.Name = name →
      ∀ hw ∈ n1.Value.Nodes, ':' ∈ hw.1.toList)
    (hlast : lastNamed name r.Node.Nodes = some n)
    (hne : ds ≠ [])
    (hurl3 : d3.urlParses
      (c.Config.AdminUrl ++ c.Config.Prefix ++ "upstreams/" ++ n.Value.Id ++ "/nodes") = true)
    (hurl4 : d4.urlParses
      (c.Config.AdminUrl ++ c.Config.Prefix ++ "upstreams/" ++ n.Value.Id) = true) :
    (SyncInstances d1 c name tpl ds1 diff1).client.cached name = none ∧
    (GetServiceAllInstances d2 (SyncInstances d1 c name tpl ds1 diff1).client name).trace
      = [listingRequest c] ∧
    (SyncInstances d3
        (GetServiceAllInstances d2 (SyncInstances d1 c name tpl ds1 diff1).client name).client
        name tpl ds diff).trace
      = [⟨"PATCH", c.Config.AdminUrl ++ c.Config.Prefix ++ "upstreams/" ++ n.Value.Id ++ "/nodes",
          [("Accept", "application/json"), ("X-API-KEY", apiKey c)],
          d3.jsonMarshalNodes (buildNodes ds)⟩] ∧
    (GetServiceAllInstances d4
        (GetServiceAllInstances d2 (SyncInstances d1 c name tpl ds1 diff1).client name).client
        name).trace
      = [⟨"GET", c.Config.AdminUrl ++ c.Config.Prefix ++ "upstreams/" ++ n.Value.Id,
          [("Accept", "application/json"), ("X-API-KEY", apiKey c)], ""⟩] := by
  rw [SyncInstances_client d1 c name tpl ds1 diff1]
  obtain ⟨hclient, htrace⟩ :=
    GetServiceAllInstances_client_after_listing d2 c name resp r hfree hmiss hurl hdo hdec hwf
  rw [hclient]
  have hcached : (⟨c.Config, some (indexAll r.Node.Nodes (c.UpstreamIdMap.getD [])), false⟩ :
      ApisixClient).cached name = some ("upstreams/" ++ n.Value.Id) := by
    have h := indexAll_get r.Node.Nodes (c.UpstreamIdMap.getD []) name
    rw [hlast] at h
    exact h
  have hassoc3 : c.Config.AdminUrl ++ c.Config.Prefix ++ "upstreams/" ++ n.Value.Id ++ "/nodes"
      = c.Config.AdminUrl ++ c.Config.Prefix ++ ("upstreams/" ++ n.Value.Id ++ "/nodes") := by
    simp [String.append_assoc]
  have hassoc4 : c.Config.AdminUrl ++ c.Config.Prefix ++ "upstreams/" ++ n.Value.Id
      = c.Config.AdminUrl ++ c.Config.Prefix ++ ("upstreams/" ++ n.Value.Id) := by
    simp [String.append_assoc]
  refine ⟨hmiss, htrace, ?_, ?_⟩
  · have hprep : prepareWrite d3
        ⟨c.Config, some (indexAll r.Node.Nodes (c.UpstreamIdMap.getD [])), false⟩ name tpl ds
        = .ok ("PATCH", "upstreams/" ++ n.Value.Id ++ "/nodes",
            d3.jsonMarshalNodes (buildNodes ds)) := by
      simp only [prepareWrite, hcached]
    rw [hassoc3] at hurl3 ⊢
    exact SyncInstances_trace_of_prepare d3 _ name tpl ds diff _ _ _ hne hprep hurl3
  · rw [hassoc4] at hurl4 ⊢
    have h := GetServiceAllInstances_trace d4
      ⟨c.Config, some (indexAll r.Node.Nodes (c.UpstreamIdMap.getD [])), false⟩ name rfl
    rw [hcached] at h
    exact h hurl4

/-- Worked example for C4: the unknown `svcA` is created by a first `SyncInstances`;
the listing of the next `GetServiceAllInstances` shows it under ids 7 and 9; the
following `SyncInstances` issues one PATCH to `upstreams/9/nodes`. -/
theorem patch_after_listing_example :
    (GetServiceAllInstances listingDeps
        (SyncInstances exampleDeps exampleClient "svcA" "" [exampleInstance] []).client
        "svcA").trace = [listingRequest exampleClient] ∧
    (SyncInstances exampleDeps
        (GetServiceAllInstances listingDeps
          (SyncInstances exampleDeps exampleClient "svcA" "" [exampleInstance] []).client
          "svcA").client
        "svcA" "" [exampleInstance] []).trace
      = [⟨"PATCH", "http://127.0.0.1:9080/apisix/admin/upstreams/9/nodes", exampleHeaders,
          "[10.0.0.1:8080=1]"⟩] :=
  have h := patch_after_listing exampleDeps listingDeps exampleDeps exampleDeps exampleClient
    "svcA" "" [exampleInstance] [] [exampleInstance] [] ⟨200, ""⟩
    (listingDeps.decodeNodeResp "").1 (ApisixNode.mk ⟨"9", "svcA", [("10.0.0.3:8080", 1)]⟩ [])
    rfl rfl rfl rfl rfl (by decide) rfl (by decide) rfl rfl
  ⟨h.2.1, h.2.2.1⟩


/-! ## `fetchInfoFromApisix` -/

theorem pluginRecord_eq (n : String) : pluginRecord n = expectedPluginRecord n := by
  unfold pluginRecord expectedPluginRecord
  by_cases h1 : n = "mqtt-proxy"
  · subst h1
    rfl
  · by_cases h2 : n = "dubbo-proxy"
    · subst h2
      rfl
    · have h2' : ¬ "dubbo-proxy" = n := fun e => h2 e.symm
      simp [h1, h2, h2']

theorem collectValues_ok (children : List Json) (acc : List (GoMap Json))
    (h : ∀ ch ∈ children, valueIsMap ch = true) :
    collectValues children acc = some (acc ++ children.filterMap valueMapOf) := by
  induction children generalizing acc with
  | nil => simp [collectValues]
  | cons ch rest ih =>
    have hrest : ∀ ch1 ∈ rest, valueIsMap ch1 = true :=
      fun ch1 h1 => h ch1 (List.mem_cons_of_mem _ h1)
    have hch : valueIsMap ch = true := h ch (by simp)
    cases ch with
    | obj b =>
      cases hb : GoMap.get b "value" with
      | none =>
        simp only [collectValues, hb, valueMapOf, List.filterMap_cons]
        exact ih acc hrest
      | some v =>
        cases v with
        | obj val =>
          simp only [collectValues, hb, valueMapOf, List.filterMap_cons]
          rw [ih _ hrest]
          simp
        | null => simp [valueIsMap, hb] at hch
        | bool x => simp [valueIsMap, hb] at hch
        | num x => simp [valueIsMap, hb] at hch
        | str x => simp [valueIsMap, hb] at hch
        | arr x => simp [valueIsMap, hb] at hch
    | null =>
      simp only [collectValues, valueMapOf, List.filterMap_cons]
      exact ih acc hrest
    | bool x =>
      simp only [collectValues, valueMapOf, List.filterMap_cons]
      exact ih acc hrest
    | num x =>
      simp only [collectValues, valueMapOf, List.filterMap_cons]
      exact ih acc hrest
    | str x =>
      simp only [collectValues, valueMapOf, List.filterMap_cons]
      exact ih acc hrest
    | arr x =>
      simp only [collectValues, valueMapOf, List.filterMap_cons]
      exact ih acc hrest

/-- Claim C7: when the request for a path containing `plugins/list` is answered and
its body decodes to the list of plugin names `names`, `fetchInfoFromApisix` returns
without error the records of the names in input order, one per name: the record of a
name is `{name: <name>}`, with the one further entry `stream: true` exactly when the
name is `mqtt-proxy` or `dubbo-proxy`. -/
theorem fetchInfoFromApisix_plugins (d : Deps) (c : ApisixClient) (uri : String)
    (resp : Response) (names : List String)
    (huri : stringsContains uri "plugins/list" = true)
    (hurl : d.urlParses (c.Config.AdminUrl ++ c.Config.Prefix ++ uri) = true)
    (hdo : d.httpDo (fetchRequest c uri) = ⟨some resp, none⟩)
    (hdec : d.decodePlugins resp.Body = (names, none)) :
    (fetchInfoFromApisix d c uri).outcome
      = .returned (⟨⟨Json.null, names.map expectedPluginRecord⟩⟩, none) := by
  have hreq : addHeaders c ⟨"GET", c.Config.AdminUrl ++ c.Config.Prefix ++ uri, [], ""⟩
      = fetchRequest c uri := rfl
  have hmap : names.map pluginRecord = names.map expectedPluginRecord :=
    List.map_congr_left (fun n _ => pluginRecord_eq n)
  unfold fetchInfoFromApisix
  simp only [newRequest, hurl, if_true, hreq, hdo, huri, hdec]
  cases names with
  | nil => rfl
  | cons n rest =>
    simp only [List.length_cons, gt_iff_lt, Nat.zero_lt_succ, if_true]
    rw [hmap]
    rfl

/-- Worked example for C7: the names `mqtt-proxy`, `foo`, `dubbo-proxy` give the three
records `{name: mqtt-proxy, stream: true}`, `{name: foo}`, `{name: dubbo-proxy, stream: true}`. -/
theorem fetchInfoFromApisix_plugins_example :
    (fetchInfoFromApisix pluginDeps exampleClient "plugins/list").outcome
      = .returned (⟨⟨Json.null,
          [[("name", Json.str "mqtt-proxy"), ("stream", Json.bool true)],
           [("name", Json.str "foo")],
           [("name", Json.str "dubbo-proxy"), ("stream", Json.bool true)]]⟩⟩, none) :=
  fetchInfoFromApisix_plugins pluginDeps exampleClient "plugins/list" ⟨200, ""⟩
    ["mqtt-proxy", "foo", "dubbo-proxy"] rfl rfl rfl rfl

/-- Claim C8: when the request for a path not containing `plugins/list` is answered and
its body decodes to a tree whose `TNodes` is a list of children, each `value` field
among them holding a map, `fetchInfoFromApisix` returns without error exactly the
`value` maps of the children that have one, in the order of the children; children
without a `value` field, and children that are not maps, contribute nothing. -/
theorem fetchInfoFromApisix_values (d : Deps) (c : ApisixClient) (uri : String)
    (resp : Response) (r : ApisixResp) (children : List Json)
    (huri : stringsContains uri "plugins/list" = false)
    (hurl : d.urlParses (c.Config.AdminUrl ++ c.Config.Prefix ++ uri) = true)
    (hdo : d.httpDo (fetchRequest c uri) = ⟨some resp, none⟩)
    (hdec : d.decodeResp resp.Body = (r, none))
    (hlist : r.Node.TNodes = Json.arr children)
    (hmaps : ∀ ch ∈ children, valueIsMap ch = true) :
    (fetchInfoFromApisix d c uri).outcome
      = .returned (⟨⟨Json.arr children, children.filterMap valueMapOf⟩⟩, none) := by
  have hreq : addHeaders c ⟨"GET", c.Config.AdminUrl ++ c.Config.Prefix ++ uri, [], ""⟩
      = fetchRequest c uri := rfl
  have hcol := collectValues_ok children [] hmaps
  unfold fetchInfoFromApisix
  simp only [newRequest, hurl, if_true, hreq, hdo, huri, hdec]
  simp only [Bool.false_eq_true, if_false, List.length_nil, gt_iff_lt, Nat.lt_irrefl]
  split
  · rename_i n hn
    rw [hlist] at hn
    cases hn
    rw [hcol, hlist]
    rfl
  · rename_i hn
    exact absurd hlist (hn children)

/-- Worked example for C8: of three children, the first and the third carrying a
`value` map and the second none, exactly the two maps are returned. -/
theorem fetchInfoFromApisix_values_example :
    (fetchInfoFromApisix treeDeps exampleClient "routes").outcome
      = .returned (⟨⟨(treeDeps.decodeResp "").1.Node.TNodes,
          [[("id", Json.str "1")], [("id", Json.str "3")]]⟩⟩, none) :=
  fetchInfoFromApisix_values treeDeps exampleClient "routes" ⟨200, ""⟩
    (treeDeps.decodeResp "").1 _ rfl rfl rfl rfl rfl (by decide)

/-- Claim C9 (amended): when the request for a path not containing `plugins/list` is
answered and its body decodes to a tree whose `TNodes` is not a list (a single
resource), `fetchInfoFromApisix` does not fold anything: it returns without error the
empty list of records. -/
theorem fetchInfoFromApisix_single (d : Deps) (c : ApisixClient) (uri : String)
    (resp : Response) (r : ApisixResp)
    (huri : stringsContains uri "plugins/list" = false)
    (hurl : d.urlParses (c.Config.AdminUrl ++ c.Config.Prefix ++ uri) = true)
    (hdo : d.httpDo (fetchRequest c uri) = ⟨some resp, none⟩)
    (hdec : d.decodeResp resp.Body = (r, none))
    (hsingle : ∀ children, r.Node.TNodes ≠ Json.arr children) :
    (fetchInfoFromApisix d c uri).outcome = .returned (⟨⟨r.Node.TNodes, []⟩⟩, none) := by
  have hreq : addHeaders c ⟨"GET", c.Config.AdminUrl ++ c.Config.Prefix ++ uri, [], ""⟩
      = fetchRequest c uri := rfl
  unfold fetchInfoFromApisix
  simp only [newRequest, hurl, if_true, hreq, hdo, huri, hdec]
  simp only [Bool.false_eq_true, if_false, List.length_nil, gt_iff_lt, Nat.lt_irrefl]

/-- Worked example for C9: a single resource whose node has no list of children gives
the empty list. -/
theorem fetchInfoFromApisix_single_example :
    (fetchInfoFromApisix singleDeps exampleClient "upstreams/7").outcome
      = .returned (⟨⟨Json.null, []⟩⟩, none) :=
  fetchInfoFromApisix_single singleDeps exampleClient "upstreams/7" ⟨200, ""⟩ ⟨⟨Json.null, []⟩⟩
    rfl rfl rfl rfl (by intro children h; cases h)

/-- Claim C9 as stated fails: for a single resource with the `value` map `{id: 7}` in
the place of the list of children, `fetchInfoFromApisix` returns the empty list, and so
no one-element list holding that map. -/
theorem fetchInfoFromApisix_does_not_fold :
    stringsContains "upstreams/7" "plugins/list" = false ∧
    (singleChildDeps.decodeResp "").1.Node.TNodes
      = Json.obj [("key", Json.str "/apisix/upstreams/7"), ("value", Json.obj [("id", Json.str "7")])] ∧
    (fetchInfoFromApisix singleChildDeps exampleClient "upstreams/7").outcome
      = .returned (⟨⟨(singleChildDeps.decodeResp "").1.Node.TNodes, []⟩⟩, none) ∧
    (∀ t record e, (fetchInfoFromApisix singleChildDeps exampleClient "upstreams/7").outcome
      ≠ .returned (⟨⟨t, [record]⟩⟩, e)) := by
  have hout : (fetchInfoFromApisix singleChildDeps exampleClient "upstreams/7").outcome
      = .returned (⟨⟨(singleChildDeps.decodeResp "").1.Node.TNodes, []⟩⟩, none) := rfl
  refine ⟨rfl, rfl, hout, ?_⟩
  intro t record e h
  rw [hout] at h
  injection h with h1
  injection h1 with h2 _
  injection h2 with h3
  injection h3 with _ h4
  cases h4

end Apisix
